import Mathlib

/-!
Verification of the dnn repository (im2col/col2im strided-view transform,
layer forward/backward protocol, back-propagation engine) against its
natural-language specification.  Python functions are shallowly embedded:
numpy arrays become shapes plus total lookup functions on C-order
multi-indices, fallible operations return an error monad, and lookups of
module-level (global) names are made explicit, since several functions in
src/dnn/utils/im2col.py read module globals instead of their parameters.
All numeric values are modelled as rationals; the external numeric
routines np.exp and np.tanh are abstracted as function parameters.
-/

namespace Dnn

/-- Exceptions raised by the embedded Python code.  runtimeShapeMismatch is
the RuntimeError raised for incompatible image/window/stride combinations
(the ShapeMismatch of the specification's error taxonomy); nameError models
a lookup of an unbound module global; valueError models numpy reshape or
broadcast failures; attributeError models attribute access on None. -/
inductive PyErr
  | runtimeShapeMismatch
  | nameError
  | valueError
  | attributeError
  | indexError
  | zeroDivisionError
  deriving DecidableEq, Repr

namespace Np

/-- A numpy ndarray: a shape together with a total lookup function on
C-order multi-indices.  Lookups outside the shape return junk values that
no theorem depends on. -/
structure Tensor where
  shape : List Nat
  data : List Nat → ℚ

/-- Number of elements (numpy .size). -/
def Tensor.size (t : Tensor) : Nat := t.shape.prod

/-- A multi-index is valid for a shape when it has one entry per axis,
each below the corresponding extent. -/
def validIx : List Nat → List Nat → Bool
  | [], [] => true
  | d :: ds, i :: is => i < d && validIx ds is
  | _, _ => false

/-- C-order multi-index of a linear offset. -/
def unrank : List Nat → Nat → List Nat
  | [], _ => []
  | d :: ds, L => (L / ds.prod) % d :: unrank ds (L % ds.prod)

/-- C-order linear offset of a multi-index (junk on length mismatch). -/
def rank : List Nat → List Nat → Nat
  | d :: ds, i :: is => i % d * ds.prod + rank ds is
  | _, _ => 0

/-- numpy reshape: reinterpret the C-order element sequence under a new
shape; fails (ValueError) when the element counts differ. -/
def reshape (t : Tensor) (s : List Nat) : Except PyErr Tensor :=
  if t.size = s.prod then
    .ok ⟨s, fun ix => t.data (unrank t.shape (rank s ix))⟩
  else .error .valueError

/-- Broadcast two axis extents (numpy rules): equal, or one of them is 1. -/
def bdim (a b : Nat) : Option Nat :=
  if a = b then some a else if a = 1 then some b else if b = 1 then some a else none

/-- Broadcast two reversed shapes (aligned from the trailing axis). -/
def bshapeRev : List Nat → List Nat → Option (List Nat)
  | [], ys => some ys
  | xs, [] => some xs
  | x :: xs, y :: ys => do
      let d ← bdim x y
      let rest ← bshapeRev xs ys
      pure (d :: rest)

/-- numpy broadcast of two shapes; none when incompatible. -/
def bshape (xs ys : List Nat) : Option (List Nat) :=
  (bshapeRev xs.reverse ys.reverse).map List.reverse

/-- Map a multi-index of the broadcast result back to an index of an
operand with shape s: drop the extra leading axes and read position 0 on
the axes the operand has extent 1. -/
def bindex (s ix : List Nat) : List Nat :=
  List.zipWith (fun d i => if d = 1 then 0 else i) s (ix.drop (ix.length - s.length))

/-- Elementwise binary operation with numpy broadcasting; ValueError when
the shapes do not broadcast. -/
def binop (f : ℚ → ℚ → ℚ) (a b : Tensor) : Except PyErr Tensor :=
  match bshape a.shape b.shape with
  | none => .error .valueError
  | some s => .ok ⟨s, fun ix => f (a.data (bindex a.shape ix)) (b.data (bindex b.shape ix))⟩

/-- Elementwise product with broadcasting. -/
def bmul (a b : Tensor) : Except PyErr Tensor := binop (fun p q => p * q) a b

/-- Elementwise scalar-minus-tensor (numpy c - x). -/
def scalarSub (c : ℚ) (t : Tensor) : Tensor := ⟨t.shape, fun ix => c - t.data ix⟩

/-- Elementwise scalar multiple (numpy c * x). -/
def scalarMul (c : ℚ) (t : Tensor) : Tensor := ⟨t.shape, fun ix => c * t.data ix⟩

/-- numpy zeros. -/
def zeros (s : List Nat) : Tensor := ⟨s, fun _ => 0⟩

/-- 2-d matrix product np.dot; ValueError on rank or inner-dimension
mismatch (the only uses in the sources are 2-d by 2-d). -/
def dot (a b : Tensor) : Except PyErr Tensor :=
  match a.shape, b.shape with
  | [m, k], [k2, n] =>
      if k = k2 then
        .ok ⟨[m, n], fun ix =>
          ∑ l ∈ Finset.range k, a.data [ix.headD 0, l] * b.data [l, ix.getD 1 0]⟩
      else .error .valueError
  | _, _ => .error .valueError

/-- numpy .T: reverse the axes. -/
def transposeT (t : Tensor) : Tensor := ⟨t.shape.reverse, fun ix => t.data ix.reverse⟩

/-- np.c_ of a ones column with a 2-d matrix: prepend a column of ones. -/
def prependOnesCol (t : Tensor) : Except PyErr Tensor :=
  match t.shape with
  | [m, k] => .ok ⟨[m, k + 1], fun ix =>
      if ix.getD 1 0 = 0 then 1 else t.data [ix.headD 0, ix.getD 1 0 - 1]⟩
  | _ => .error .valueError

/-- np.r_ of two 2-d matrices: stack rows; ValueError when the column
counts differ. -/
def vstack (a b : Tensor) : Except PyErr Tensor :=
  match a.shape, b.shape with
  | [r1, c1], [r2, c2] =>
      if c1 = c2 then
        .ok ⟨[r1 + r2, c1], fun ix =>
          if ix.headD 0 < r1 then a.data ix else b.data ((ix.headD 0 - r1) :: ix.tail)⟩
      else .error .valueError
  | _, _ => .error .valueError

/-- Python w[1:, :] on a 2-d matrix: drop the first row. -/
def dropFirstRow (t : Tensor) : Tensor :=
  match t.shape with
  | r :: rest => ⟨(r - 1) :: rest, fun ix => t.data ((ix.headD 0 + 1) :: ix.tail)⟩
  | [] => t

/-- np.argmax over one row of a 2-d matrix: index of the first maximal
entry among columns 0..n-1. -/
def argmaxRow (n : Nat) (f : Nat → ℚ) : Nat :=
  (List.range n).foldl (fun best j => if f best < f j then j else best) 0

end Np

namespace Act

/-- The members of the Activation.Type enumeration
(src/dnn/layers/activation.py line 84). -/
inductive ActType
  | sigmoid
  | relu
  | elu
  | srrelu
  | tanh
  | softmax
  deriving DecidableEq, Repr

/-- A Python value handed to ActivationFactory.get: either one of the
Activation.Type members, or some other object (a string, None, ...) that
is not identical to any member. -/
inductive PyVal
  | tag (t : ActType)
  | str (s : String)
  | pyNone
  deriving DecidableEq, Repr

/-- The class of the activation instance the factory constructs. -/
inductive ActInstance
  | sigmoid
  | relu
  | elu
  | srrelu
  | tanh
  | softmax
  deriving DecidableEq, Repr

/-- ActivationFactory.get (src/dnn/layers/activation.py lines 232-257):
an if/elif chain over identity comparisons with the six Activation.Type
members.  The chain has no else branch, so any other argument falls
through and the method returns Python None (modelled as Option.none);
the ok wrapper records that no exception is raised. -/
def ActivationFactory.get : PyVal → Except PyErr (Option ActInstance)
  | .tag .sigmoid => .ok (some .sigmoid)
  | .tag .relu => .ok (some .relu)
  | .tag .elu => .ok (some .elu)
  | .tag .srrelu => .ok (some .srrelu)
  | .tag .tanh => .ok (some .tanh)
  | .tag .softmax => .ok (some .softmax)
  | _ => .ok none

/-- Sigmoid.activate (line 110): 1 / (1 + np.exp(-x)), with np.exp
abstracted as the function parameter e. -/
def sigmoidActivate (e : ℚ → ℚ) (x : Np.Tensor) : Np.Tensor :=
  ⟨x.shape, fun ix => 1 / (1 + e (-x.data ix))⟩

/-- Sigmoid.grad (line 113): (1. - x) * x, an elementwise product of two
same-shaped arrays. -/
def sigmoidGrad (x : Np.Tensor) : Except PyErr Np.Tensor :=
  Np.bmul (Np.scalarSub 1 x) x

/-- Tanh.activate (line 200): np.tanh, abstracted as the parameter th. -/
def tanhActivate (th : ℚ → ℚ) (x : Np.Tensor) : Np.Tensor :=
  ⟨x.shape, fun ix => th (x.data ix)⟩

/-- Tanh.grad (line 203): 1. - np.power(x, 2). -/
def tanhGrad (x : Np.Tensor) : Np.Tensor :=
  Np.scalarSub 1 ⟨x.shape, fun ix => x.data ix ^ 2⟩

/-- The mask (x > 0.).astype(x.dtype) computed by ReLU.activate
(line 132): 1 where the entry is strictly positive, else 0. -/
def reluMask (x : Np.Tensor) : Np.Tensor :=
  ⟨x.shape, fun ix => if 0 < x.data ix then 1 else 0⟩

/-- The per-instance state of an activation object: ReLU stores its mask
in self.__mask at activate time; the other activations cited by the
claims store nothing. -/
structure ActState where
  mask : Option Np.Tensor

/-- An activation object's behavior: activate returns the fire and the
updated instance state, grad maps the stored state and its argument to
the derivative array. -/
structure ActBehavior where
  activate : ActState → Np.Tensor → Except PyErr (Np.Tensor × ActState)
  grad : ActState → Np.Tensor → Except PyErr Np.Tensor

/-- The Sigmoid class (lines 99-113). -/
def sigmoidB (e : ℚ → ℚ) : ActBehavior where
  activate st x := .ok (sigmoidActivate e x, st)
  grad _ x := sigmoidGrad x

/-- The Tanh class (lines 190-203). -/
def tanhB (th : ℚ → ℚ) : ActBehavior where
  activate st x := .ok (tanhActivate th x, st)
  grad _ x := .ok (tanhGrad x)

/-- The ReLU class (lines 116-136): activate records the mask and returns
x * mask; grad ignores its argument and returns the recorded mask
(AttributeError if activate has never run). -/
def reluB : ActBehavior where
  activate _ x := do
    let m := reluMask x
    let f ← Np.bmul x m
    .ok (f, ⟨some m⟩)
  grad st _ :=
    match st.mask with
    | some m => .ok m
    | none => .error .attributeError

end Act

namespace Layers

/-- Modelled from the spec: is_multi_channels_image is imported from the
utils modules, which are not under src.  Per section 3 of the spec the
image form of a layer shape is the triple (channels, rows, cols) while the
flat form is a scalar feature count, so the predicate recognizes
3-component layer shapes. -/
def is_multi_channels_image (s : List Nat) : Bool := s.length = 3

/-- Modelled from the spec: flatten is imported from the utils modules,
which are not under src.  Per sections 3 and 4.2 it reshapes an
image-form batch into the flat form (batch, prod shape). -/
def flatten (x : Np.Tensor) (s : List Nat) : Except PyErr Np.Tensor :=
  match x.shape with
  | [] => .error .valueError
  | b :: _ => Np.reshape x [b, s.prod]

/-- Modelled from the spec: unflatten is imported from the utils modules,
which are not under src.  It is the inverse of flatten, reshaping a flat
batch back to the image form (batch, channels, rows, cols). -/
def unflatten (x : Np.Tensor) (s : List Nat) : Except PyErr Np.Tensor :=
  match x.shape with
  | [] => .error .valueError
  | b :: _ => Np.reshape x (b :: s)

/-- The per-call state of an ActivationLayer: its wired shapes, the
activation instance state, and the fire stored by the last forward call
(None before any forward). -/
structure ALayer where
  input_shape : List Nat
  output_shape : List Nat
  st : Act.ActState
  fire : Option Np.Tensor

/-- ActivationLayer.set_parent (lines 40-42): the output shape is the
input shape inferred from the parent. -/
def ALayer.mk0 (s : List Nat) : ALayer := ⟨s, s, ⟨none⟩, none⟩

/-- ActivationLayer.__forward (lines 56-63): flatten the input when the
input shape is a multi-channels image, activate, store the fire,
unflattening it to the INPUT shape when the output shape is a
multi-channels image. -/
def ALayer.fwd (B : Act.ActBehavior) (l : ALayer) (x : Np.Tensor) :
    Except PyErr ALayer := do
  let x2 ← if is_multi_channels_image l.input_shape then flatten x l.input_shape else .ok x
  let p ← B.activate l.st x2
  let f ← if is_multi_channels_image l.output_shape then unflatten p.1 l.input_shape
          else .ok p.1
  .ok ⟨l.input_shape, l.output_shape, p.2, some f⟩

/-- ActivationLayer.__backward (lines 65-72): flatten dy (to the INPUT
shape) when the output shape is a multi-channels image, multiply
elementwise by grad of the stored fire, and unflatten the backfire to the
input shape when it is a multi-channels image. -/
def ALayer.bwd (B : Act.ActBehavior) (l : ALayer) (dy : Np.Tensor) :
    Except PyErr Np.Tensor := do
  let dy2 ← if is_multi_channels_image l.output_shape then flatten dy l.input_shape
            else .ok dy
  let fire ← match l.fire with
             | some f => .ok f
             | none => .error .attributeError
  let g ← B.grad l.st fire
  let bf ← Np.bmul dy2 g
  if is_multi_channels_image l.input_shape then unflatten bf l.input_shape else .ok bf

/-- The state of an AffineLayer: wired shapes, the bias-augmented weight
w, the stored bias-extended input x (None before any forward), the
weight gradient dw, and the stored fire. -/
structure AffLayer where
  input_shape : List Nat
  output_shape : List Nat
  w : Np.Tensor
  x : Option Np.Tensor
  dw : Np.Tensor
  fire : Option Np.Tensor

/-- AffineLayer.set_parent (src/dnnet/layers/affine.py lines 39-48): the
initial weight (w_rows, w_cols) comes from the external weight
initialization, a zero bias row is stacked on top with np.r_, and dw is
zeroed with the same shape. -/
def AffLayer.setParent (inS outS : List Nat) (init : Np.Tensor) :
    Except PyErr AffLayer := do
  let wCols := outS.prod
  let w ← Np.vstack (Np.zeros [1, wCols]) init
  .ok ⟨inS, outS, w, none, Np.zeros w.shape, none⟩

/-- AffineLayer.__forward (lines 65-74): flatten an image input, extend
it with a leading ones column (the bias terms), multiply by w, store the
extended input and the fire (unflattened to the output shape when that is
a multi-channels image). -/
def AffLayer.fwd (l : AffLayer) (x : Np.Tensor) : Except PyErr AffLayer := do
  let x1 ← if is_multi_channels_image l.input_shape then flatten x l.input_shape else .ok x
  let xb ← Np.prependOnesCol x1
  let f0 ← Np.dot xb l.w
  let f ← if is_multi_channels_image l.output_shape then unflatten f0 l.output_shape
          else .ok f0
  .ok ⟨l.input_shape, l.output_shape, l.w, some xb, l.dw, some f⟩

/-- AffineLayer.__backward (lines 76-85): flatten dy (to the OUTPUT
shape) when the output shape is a multi-channels image, compute
dw = (1/batch_size) x^T dy over the full augmented weight and
backfire = dy (w[1:, :])^T excluding the bias row, unflattening the
backfire to the input shape when it is a multi-channels image.  Returns
the updated layer and the backfire. -/
def AffLayer.bwd (l : AffLayer) (dy : Np.Tensor) :
    Except PyErr (AffLayer × Np.Tensor) := do
  let dy1 ← if is_multi_channels_image l.output_shape then flatten dy l.output_shape
            else .ok dy
  let xb ← match l.x with
           | some xb => .ok xb
           | none => .error .attributeError
  let batch := xb.shape.headD 0
  let dwRaw ← Np.dot (Np.transposeT xb) dy1
  let dw := Np.scalarMul (1 / (batch : ℚ)) dwRaw
  let bf0 ← Np.dot dy1 (Np.transposeT (Np.dropFirstRow l.w))
  let bf ← if is_multi_channels_image l.input_shape then unflatten bf0 l.input_shape
           else .ok bf0
  .ok (⟨l.input_shape, l.output_shape, l.w, l.x, dw, l.fire⟩, bf)

end Layers

namespace Engine

/-- A layer as the training engine sees it (src/dnn/training/
back_propagation.py): a weight, the layer's forward / backfire /
weight-gradient functions, the has_weight flag, and the transient
per-call fields fire, stored input x, and dw.  The concrete per-layer
computations are parameters; the engine drives them through the chain
protocol. -/
structure Node (W α : Type) where
  w : W
  fwf : W → α → α
  bwf : W → α → α → α
  gwf : W → α → α → W
  hasWeight : Bool
  x : α
  fire : α
  dw : W

/-- The chained forward pass started by layers[0].forward(x): each layer
stores its input and fire and forwards its fire to the child. -/
def forwardRec {W α : Type} : List (Node W α) → α → List (Node W α)
  | [], _ => []
  | n :: rest, x =>
      let f := n.fwf n.w x
      { n with x := x, fire := f } :: forwardRec rest f

/-- layers[-1].fire: the fire of the terminal layer (dflt on an empty
chain). -/
def lastFire {W α : Type} (ns : List (Node W α)) (dflt : α) : α :=
  (ns.getLast?).elim dflt Node.fire

/-- The chained backward pass on the reversed chain: each layer computes
its weight gradient and passes its backfire to the parent. -/
def backwardRevGo {W α : Type} : List (Node W α) → α → List (Node W α)
  | [], _ => []
  | n :: ps, dy =>
      { n with dw := n.gwf n.w n.x dy } :: backwardRevGo ps (n.bwf n.w n.x dy)

/-- The chained backward pass started by layers[-1].backward(dy),
propagating from the terminal layer toward the root. -/
def backwardRec {W α : Type} (ns : List (Node W α)) (dy : α) : List (Node W α) :=
  (backwardRevGo ns.reverse dy).reverse

/-- BackPropagation.__optimize_network (lines 207-217): for every layer
with has_weight() True, invoke the optimizer update on its live weight
and freshly computed gradient. -/
def optimizeNetwork {W α : Type} (opt : W → W → W) (ns : List (Node W α)) :
    List (Node W α) :=
  ns.map (fun n => if n.hasWeight then { n with w := opt n.w n.dw } else n)

/-- Engine-level events, one per statement of
BackPropagation.__train_one_batch (lines 184-186). -/
inductive Event
  | forwardRoot
  | backwardSeeded
  | optimizeNetwork
  deriving DecidableEq, Repr

/-- BackPropagation.__train_one_batch (lines 165-186):
layers[0].forward(x_train), then layers[-1].backward(layers[-1].fire -
y_train), then __optimize_network; also returns the event trace of the
three calls. -/
def trainOneBatch {W α : Type} [Sub α] (opt : W → W → W) (ns : List (Node W α))
    (x y : α) : List (Node W α) × List Event :=
  let ns1 := forwardRec ns x
  let seed := lastFire ns1 x - y
  (optimizeNetwork opt (backwardRec ns1 seed),
   [Event.forwardRoot, Event.backwardSeeded, Event.optimizeNetwork])

/-- The value of the whole chain applied to x: the composition of the
per-layer forward functions with the current weights. -/
def chainEval {W α : Type} (ns : List (Node W α)) (x : α) : α :=
  ns.foldl (fun a n => n.fwf n.w a) x

/-- The batch slice boundaries cut by BackPropagation.__train_one_epoch
(lines 153-163): for i in range(0, data_num, batch_size) with
end = min(i + batch_size, data_num); Python range raises ValueError on a
zero step. -/
def epochBounds (n bs : Nat) : Except PyErr (List (Nat × Nat)) :=
  if bs = 0 then .error .valueError
  else .ok ((List.range ((n + bs - 1) / bs)).map (fun k => (k * bs, min (k * bs + bs) n)))

/-- BackPropagation.__train_one_epoch (lines 136-163): invoke
__train_one_batch on each contiguous slice in order, threading the layer
state and concatenating the event traces.  xs and ys abstract the row
slices x_train[i:end], y_train[i:end]. -/
def trainOneEpoch {W α : Type} [Sub α] (opt : W → W → W) (ns : List (Node W α))
    (xs ys : Nat × Nat → α) (n bs : Nat) :
    Except PyErr (List (Node W α) × List Event) := do
  let L ← epochBounds n bs
  .ok (L.foldl (fun p se =>
      let r := trainOneBatch opt p.1 (xs se) (ys se)
      (r.1, p.2 ++ r.2)) (ns, []))

/-- BackPropagation.__get_accuracy (lines 267-289): the fraction of rows
on which the argmax of the target row equals the argmax of the predicted
row. -/
def getAccuracy (y yp : Np.Tensor) : ℚ :=
  let rows := y.shape.headD 0
  (((List.range rows).countP (fun i =>
      Np.argmaxRow (y.shape.getD 1 0) (fun j => y.data [i, j]) =
      Np.argmaxRow (yp.shape.getD 1 0) (fun j => yp.data [i, j])) : ℚ)) / (rows : ℚ)

/-- The per-epoch evaluation record built by BackPropagation.__evaluate. -/
structure EvalOut where
  loss_train : ℚ
  loss_test : Option ℚ
  acc_train : Option ℚ
  acc_test : Option ℚ
  deriving DecidableEq, Repr

/-- BackPropagation.__evaluate (lines 219-265): y_test_pred starts as
None; the training loss is always computed; the test prediction and loss
only when x_test.size is nonzero; when the loss function is not
SquaredError the training accuracy is computed and then the code reads
y_test_pred.size, which on an empty test set dereferences None
(AttributeError).  The loss function and the chain's predict are
abstracted as parameters. -/
def evaluate (isSquaredError : Bool) (lossGet : Np.Tensor → Np.Tensor → ℚ)
    (predict : Np.Tensor → Np.Tensor)
    (x_train y_train x_test y_test : Np.Tensor) : Except PyErr EvalOut := do
  let y_train_pred := predict x_train
  let loss_train := lossGet y_train_pred y_train
  let y_test_pred : Option Np.Tensor :=
    if x_test.size ≠ 0 then some (predict x_test) else none
  let loss_test : Option ℚ :=
    if x_test.size ≠ 0 then some (lossGet (predict x_test) y_test) else none
  if isSquaredError then
    .ok ⟨loss_train, loss_test, none, none⟩
  else do
    let acc_train := getAccuracy y_train y_train_pred
    let ytp ← match y_test_pred with
              | some t => .ok t
              | none => .error .attributeError
    let acc_test : Option ℚ :=
      if ytp.size ≠ 0 then some (getAccuracy y_test ytp) else none
    .ok ⟨loss_train, loss_test, some acc_train, acc_test⟩

end Engine

namespace Im2col

/-- The module-level (global) names that the functions of
src/dnn/utils/im2col.py read: pad_img line 51 reads the global pad,
extend_img_for_filtering lines 144-145 read the globals gap_r and gap_c,
col2im line 467 reads the globals oh and ow.  A none entry models an
unbound name (NameError on lookup). -/
structure PyGlobals where
  pad : Option (Nat × Nat)
  gap_r : Option Nat
  gap_c : Option Nat
  oh : Option Nat
  ow : Option Nat

/-- The bindings the module's own top-level notebook cells establish
before its import crashes (line 273 reads the then-unbound st_r):
pad = (0, 0) at line 226, gap_r = gap_c = 0 at line 250; oh and ow are
never bound outside string literals. -/
def moduleEnv : PyGlobals := ⟨some (0, 0), some 0, some 0, none, none⟩

/-- The environment of the module with the dead top-level notebook cells
removed, as the specification reads it: no global is bound. -/
def bareEnv : PyGlobals := ⟨none, none, none, none, none⟩

/-- A canonical 4-d image array (batches, channels, rows, cols). -/
structure Arr4 where
  b : Nat
  c : Nat
  h : Nat
  w : Nat
  data : Nat → Nat → Nat → Nat → ℚ

/-- The 2-d matrix im2col returns. -/
structure Mat2 where
  rows : Nat
  cols : Nat
  data : Nat → Nat → ℚ

/-- A 1-4 dimensional image argument as accepted by im2col. -/
inductive ImgNd
  | d1 (n : Nat) (data : Nat → ℚ)
  | d2 (h w : Nat) (data : Nat → Nat → ℚ)
  | d3 (c h w : Nat) (data : Nat → Nat → Nat → ℚ)
  | d4 (a : Arr4)

/-- reshape_img (lines 73-99): lift a 1-3d array to the canonical
(batches, channels, rows, cols) form by prepending size-1 axes. -/
def reshape_img : ImgNd → Arr4
  | .d1 n f => ⟨1, 1, 1, n, fun _ _ _ j => f j⟩
  | .d2 h w f => ⟨1, 1, h, w, fun _ _ i j => f i j⟩
  | .d3 c h w f => ⟨1, c, h, w, fun _ ch i j => f ch i j⟩
  | .d4 a => a

/-- A pad amount per axis: a symmetric int or a (before, after) pair. -/
inductive PadArg
  | int (p : Nat)
  | pair (p q : Nat)

/-- Pad before the axis. -/
def PadArg.before : PadArg → Nat
  | .int p => p
  | .pair p _ => p

/-- Pad after the axis. -/
def PadArg.after : PadArg → Nat
  | .int p => p
  | .pair _ q => q

/-- Zero-pad the two trailing axes of a 4-d image. -/
def padApply (img : Arr4) (pr pc : PadArg) : Arr4 :=
  ⟨img.b, img.c, img.h + pr.before + pr.after, img.w + pc.before + pc.after,
   fun b ch r cl =>
     if pr.before ≤ r ∧ r < pr.before + img.h ∧ pc.before ≤ cl ∧ cl < pc.before + img.w
     then img.data b ch (r - pr.before) (cl - pc.before)
     else 0⟩

/-- pad_img (lines 20-68).  Line 51 tests np.prod(pad) == 0 on the MODULE
GLOBAL pad, not on the pad_rows/pad_cols parameters its docstring
describes: an unbound global raises NameError, and a bound global with a
zero product short-circuits to the unpadded image whatever the arguments
are.  When the global product is nonzero, npad gains a rows entry always
but a cols entry only when pad_cols is a tuple or a truthy int (lines
63-66), so an int pad_cols of 0 leaves npad one entry short of the rank
and np.pad raises ValueError.  (The ndim < 2 guard of line 47 cannot fire
on the canonical 4-d input.) -/
def pad_img (env : PyGlobals) (img : Arr4) (pad_rows pad_cols : PadArg) :
    Except PyErr Arr4 := do
  let padg ← match env.pad with
             | some p => .ok p
             | none => .error .nameError
  if padg.1 * padg.2 = 0 then
    .ok img
  else
    match pad_cols with
    | .int 0 => .error .valueError
    | _ => .ok (padApply img pad_rows pad_cols)

/-- Python floor division; ZeroDivisionError on a zero divisor. -/
def pyfdiv (a m : ℤ) : Except PyErr ℤ :=
  if m = 0 then .error .zeroDivisionError else .ok (Int.fdiv a m)

/-- Python remainder (sign of the divisor); ZeroDivisionError on a zero
divisor. -/
def pymod (a m : ℤ) : Except PyErr ℤ :=
  if m = 0 then .error .zeroDivisionError else .ok (Int.fmod a m)

/-- get_remainders_of_filtering (lines 102-117): the remainders
(rows - f_rows) % strides[0] and (cols - f_cols) % strides[1]. -/
def get_remainders_of_filtering (rows cols f_rows f_cols : Nat)
    (strides : Nat × Nat) : Except PyErr (ℤ × ℤ) := do
  let rem_r ← pymod ((rows : ℤ) - (f_rows : ℤ)) (strides.1 : ℤ)
  let rem_c ← pymod ((cols : ℤ) - (f_cols : ℤ)) (strides.2 : ℤ)
  .ok (rem_r, rem_c)

/-- extend_img_for_filtering (lines 120-146).  The docstring says the
image is padded from the rem_r/rem_c parameters, but the body computes
pad_r = (gap_r//2, gap_r - gap_r//2) and pad_c likewise from the MODULE
GLOBALS gap_r and gap_c, so the parameters are dead: an unbound global
raises NameError and the notebook-bound value 0 pads by nothing. -/
def extend_img_for_filtering (env : PyGlobals) (img : Arr4) (rem_r rem_c : ℤ) :
    Except PyErr Arr4 := do
  let gr ← match env.gap_r with
           | some g => .ok g
           | none => .error .nameError
  let gc ← match env.gap_c with
           | some g => .ok g
           | none => .error .nameError
  pad_img env img (.pair (gr / 2) (gr - gr / 2)) (.pair (gc / 2) (gc - gc / 2))

/-- The strided 6-d view of lines 203-212 composed with the
transpose(0, 2, 3, 1, 4, 5) and the final 2-d reshape of line 215, as an
explicit gather: output row R enumerates (batch, dst_row, dst_col) in
C-order, output column C enumerates (channel, f_row, f_col) in C-order,
and the entry reads the padded buffer at the strided window offset. -/
def gatherView (pimg : Arr4) (f_rows f_cols sr sc dr dc : Nat) : Mat2 :=
  ⟨pimg.b * dr * dc, pimg.c * f_rows * f_cols, fun R C =>
    pimg.data (R / (dr * dc)) (C / (f_rows * f_cols))
      (R % (dr * dc) / dc * sr + C % (f_rows * f_cols) / f_cols)
      (R % (dr * dc) % dc * sc + C % (f_rows * f_cols) % f_cols)⟩

/-- im2col (lines 149-217): reshape to 4-d and pad, compute the stride
remainders, on a nonzero remainder either extend (force) or raise the
shape-mismatch RuntimeError, then materialize the strided window view as
a (batches * dst_rows * dst_cols, channels * f_rows * f_cols) matrix.
as_strided rejects a negative dimension (ValueError). -/
def im2col (env : PyGlobals) (img : ImgNd) (f_shape : Nat × Nat)
    (pad : PadArg × PadArg) (strides : Nat × Nat) (force : Bool) :
    Except PyErr Mat2 := do
  let pimg0 ← pad_img env (reshape_img img) pad.1 pad.2
  let g ← get_remainders_of_filtering pimg0.h pimg0.w f_shape.1 f_shape.2 strides
  let pimg ← if 0 < g.1 ∨ 0 < g.2 then
               if force then extend_img_for_filtering env pimg0 g.1 g.2
               else .error .runtimeShapeMismatch
             else .ok pimg0
  let dstR ← pyfdiv ((pimg.h : ℤ) - (f_shape.1 : ℤ)) (strides.1 : ℤ)
  let dstC ← pyfdiv ((pimg.w : ℤ) - (f_shape.2 : ℤ)) (strides.2 : ℤ)
  if dstR + 1 < 0 ∨ dstC + 1 < 0 then .error .valueError
  else .ok (gatherView pimg f_shape.1 f_shape.2 strides.1 strides.2
              (dstR + 1).toNat (dstC + 1).toNat)

/-- numpy transpose by an axis permutation: axis k of the result is axis
perm[k] of the operand. -/
def npTranspose (perm : List Nat) (t : Np.Tensor) : Np.Tensor :=
  ⟨perm.map (fun k => t.shape.getD k 0),
   fun ix => t.data ((List.range t.shape.length).map (fun a => ix.getD (perm.indexOf a) 0))⟩

/-- Fancy indexing t[:, idx, :] on a 3-d array: select along axis 1;
IndexError when an index is out of range or the array is not 3-d. -/
def selectAxis1 (t : Np.Tensor) (idx : List Nat) : Except PyErr Np.Tensor :=
  match t.shape with
  | [a, b, c] =>
      if idx.all (fun i => i < b) then
        .ok ⟨[a, idx.length, c],
             fun ix => t.data [ix.getD 0 0, idx.getD (ix.getD 1 0) 0, ix.getD 2 0]⟩
      else .error .indexError
  | _ => .error .indexError

/-- The selected window rows of col2im line 467-468:
np.arange(0, oh*ow).reshape(oh, -1)[::win_h, ::win_w].reshape(1, -1)[0, :],
i.e. the indices p*win_h*ow + q*win_w of the window grid subsampled with
steps win_h, win_w. -/
def rowIndices (oh ow win_h win_w : Nat) : List Nat :=
  (List.range ((oh + win_h - 1) / win_h)).flatMap (fun p =>
    (List.range ((ow + win_w - 1) / win_w)).map (fun q => p * win_h * ow + q * win_w))

/-- col2im (lines 464-474), a direct transliteration.  Line 467 reads the
MODULE GLOBALS oh and ow (never bound by the module), line 469 reshapes
through a hard-coded window count of 4, and the strides parameter is
never used.  The guards mirror numpy: reshape(oh, -1) on the empty
arange fails for oh = 0, slicing with a zero step fails, reshape fails on
an element-count mismatch. -/
def col2im (env : PyGlobals) (mat : Np.Tensor) (window_shape : Nat × Nat)
    (batch_size channels h w : Nat) (strides : Nat × Nat) :
    Except PyErr Np.Tensor := do
  let win_h := window_shape.1
  let win_w := window_shape.2
  let oh ← match env.oh with
           | some v => .ok v
           | none => .error .nameError
  let ow ← match env.ow with
           | some v => .ok v
           | none => .error .nameError
  if oh = 0 ∨ win_h = 0 ∨ win_w = 0 then .error .valueError
  else do
    let sel ← selectAxis1 mat (rowIndices oh ow win_h win_w)
    let r1 ← Np.reshape sel [batch_size, 4, channels, win_h * win_w]
    let r2 := npTranspose [0, 2, 1, 3] r1
    let r3 ← Np.reshape r2 [batch_size, channels, h / win_h, w / win_w, win_h, win_w]
    let r4 := npTranspose [0, 1, 2, 4, 3, 5] r3
    Np.reshape r4 [batch_size, channels, h, w]

/-- The number of windows of a (wr, wc) filter laid over an (hImg, wImg)
image with strides (sr, sc) that cover the pixel (r, cl): the count the
specification says col2im must sum contributions over. -/
def windowsCovering (hImg wImg wr wc sr sc r cl : Nat) : Nat :=
  ((List.range ((hImg - wr) / sr + 1)).filter
      (fun dr => dr * sr ≤ r ∧ r < dr * sr + wr)).length *
  ((List.range ((wImg - wc) / sc + 1)).filter
      (fun dc => dc * sc ≤ cl ∧ cl < dc * sc + wc)).length

end Im2col

end Dnn

open Dnn

section Helpers

theorem bind_ok_eval {ε A B : Type} (a : A) (f : A → Except ε B) :
    (Except.ok a >>= f) = f a := rfl

theorem bind_error_eval {ε A B : Type} (e : ε) (f : A → Except ε B) :
    ((Except.error e : Except ε A) >>= f) = .error e := rfl

theorem bshapeRev_self : ∀ s : List Nat, Np.bshapeRev s s = some s := by
  intro s
  induction s with
  | nil => rfl
  | cons d ds ih => simp [Np.bshapeRev, Np.bdim, ih]

theorem bshape_self (s : List Nat) : Np.bshape s s = some s := by
  simp [Np.bshape, bshapeRev_self]

theorem validIx_length : ∀ s ix : List Nat, Np.validIx s ix = true → ix.length = s.length := by
  intro s
  induction s with
  | nil =>
      intro ix h
      cases ix with
      | nil => rfl
      | cons i is => simp [Np.validIx] at h
  | cons d ds ih =>
      intro ix h
      cases ix with
      | nil => simp [Np.validIx] at h
      | cons i is =>
          simp only [Np.validIx, Bool.and_eq_true] at h
          simp [ih is h.2]

theorem bindex_self : ∀ s ix : List Nat, Np.validIx s ix = true → Np.bindex s ix = ix := by
  intro s
  induction s with
  | nil =>
      intro ix h
      cases ix with
      | nil => rfl
      | cons i is => simp [Np.validIx] at h
  | cons d ds ih =>
      intro ix h
      cases ix with
      | nil => simp [Np.validIx] at h
      | cons i is =>
          simp only [Np.validIx, Bool.and_eq_true, decide_eq_true_eq] at h
          have hlen : is.length = ds.length := validIx_length ds is h.2
          have hrec := ih is h.2
          simp only [Np.bindex, hlen, Nat.sub_self, List.drop_zero] at hrec
          simp only [Np.bindex, List.length_cons, hlen, Nat.succ_sub_succ, Nat.sub_self,
            List.drop_zero, List.zipWith_cons_cons]
          have hd : (if d = 1 then 0 else i) = i := by
            by_cases hdd : d = 1
            · have hi0 : i = 0 := by omega
              simp [hdd, hi0]
            · simp [hdd]
          rw [hd, hrec]

theorem bmul_same_shape (a b : Np.Tensor) (s : List Nat) (ha : a.shape = s)
    (hb : b.shape = s) :
    Np.bmul a b = .ok ⟨s, fun ix => a.data (Np.bindex s ix) * b.data (Np.bindex s ix)⟩ := by
  simp [Np.bmul, Np.binop, ha, hb, bshape_self]

theorem reshape_eval (t : Np.Tensor) (s : List Nat) (h : t.size = s.prod) :
    Np.reshape t s = .ok ⟨s, fun ix => t.data (Np.unrank t.shape (Np.rank s ix))⟩ := by
  simp [Np.reshape, h]

theorem dot_eval (a b : Np.Tensor) (m k n : Nat) (ha : a.shape = [m, k])
    (hb : b.shape = [k, n]) :
    Np.dot a b = .ok ⟨[m, n], fun ix =>
      ∑ l ∈ Finset.range k, a.data [ix.headD 0, l] * b.data [l, ix.getD 1 0]⟩ := by
  simp [Np.dot, ha, hb]

theorem prependOnesCol_eval (t : Np.Tensor) (m k : Nat) (h : t.shape = [m, k]) :
    Np.prependOnesCol t = .ok ⟨[m, k + 1], fun ix =>
      if ix.getD 1 0 = 0 then 1 else t.data [ix.headD 0, ix.getD 1 0 - 1]⟩ := by
  simp [Np.prependOnesCol, h]

theorem vstack_eval (a b : Np.Tensor) (r1 r2 c : Nat) (ha : a.shape = [r1, c])
    (hb : b.shape = [r2, c]) :
    Np.vstack a b = .ok ⟨[r1 + r2, c], fun ix =>
      if ix.headD 0 < r1 then a.data ix else b.data ((ix.headD 0 - r1) :: ix.tail)⟩ := by
  simp [Np.vstack, ha, hb]

theorem flatten_eval (x : Np.Tensor) (s : List Nat) (b : Nat) (rest : List Nat)
    (hx : x.shape = b :: rest) (h : rest.prod = s.prod) :
    Layers.flatten x s = .ok ⟨[b, s.prod], fun ix =>
      x.data (Np.unrank (b :: rest) (Np.rank [b, s.prod] ix))⟩ := by
  have hsize : x.size = [b, s.prod].prod := by
    simp [Np.Tensor.size, hx, h, List.prod_cons]
  simp only [Layers.flatten, hx]
  simpa [hx] using reshape_eval x [b, s.prod] hsize

theorem unflatten_eval (x : Np.Tensor) (s : List Nat) (b p : Nat)
    (hx : x.shape = [b, p]) (h : p = s.prod) :
    Layers.unflatten x s = .ok ⟨b :: s, fun ix =>
      x.data (Np.unrank [b, p] (Np.rank (b :: s) ix))⟩ := by
  have hsize : x.size = (b :: s).prod := by
    simp [Np.Tensor.size, hx, h, List.prod_cons]
  simp only [Layers.unflatten, hx]
  simpa [hx] using reshape_eval x (b :: s) hsize

theorem flatten_shape (x : Np.Tensor) (s : List Nat) (b : Nat) (rest : List Nat)
    (hx : x.shape = b :: rest) (h : rest.prod = s.prod) :
    ∃ y, Layers.flatten x s = .ok y ∧ y.shape = [b, s.prod] :=
  ⟨_, flatten_eval x s b rest hx h, rfl⟩

theorem unflatten_shape (x : Np.Tensor) (s : List Nat) (b p : Nat)
    (hx : x.shape = [b, p]) (h : p = s.prod) :
    ∃ y, Layers.unflatten x s = .ok y ∧ y.shape = b :: s :=
  ⟨_, unflatten_eval x s b p hx h, rfl⟩

theorem dot_shape (a b : Np.Tensor) (m k n : Nat) (ha : a.shape = [m, k])
    (hb : b.shape = [k, n]) : ∃ y, Np.dot a b = .ok y ∧ y.shape = [m, n] :=
  ⟨_, dot_eval a b m k n ha hb, rfl⟩

theorem prependOnesCol_shape (t : Np.Tensor) (m k : Nat) (h : t.shape = [m, k]) :
    ∃ y, Np.prependOnesCol t = .ok y ∧ y.shape = [m, k + 1] :=
  ⟨_, prependOnesCol_eval t m k h, rfl⟩

theorem vstack_shape (a b : Np.Tensor) (r1 r2 c : Nat) (ha : a.shape = [r1, c])
    (hb : b.shape = [r2, c]) : ∃ y, Np.vstack a b = .ok y ∧ y.shape = [r1 + r2, c] :=
  ⟨_, vstack_eval a b r1 r2 c ha hb, rfl⟩

theorem transposeT_shape (t : Np.Tensor) : (Np.transposeT t).shape = t.shape.reverse := rfl

end Helpers

section ClaimC9

/-- Claim C9 counterexample: requesting an activation instance from the
factory with the tag "swish", which is not an Activation.Type member,
does NOT fail with an UnsupportedConfiguration (or any other) error: the
if/elif chain of ActivationFactory.get has no else branch, so the call
silently returns Python None — exactly the non-activation value the claim
says is never returned. -/
theorem C9_counterexample :
    Act.ActivationFactory.get (.str "swish") = .ok none := rfl

/-- Claim C9 amended: requesting an activation instance with any of the
six supported Activation.Type members returns an instance of the
corresponding class, while any other value silently yields Python None;
no error of any kind is raised at configuration time — the failure is
deferred to the first use of the missing instance. -/
theorem C9_factory_amended :
    (∀ t : Act.ActType, ∃ inst, Act.ActivationFactory.get (.tag t) = .ok (some inst)) ∧
    (∀ v : Act.PyVal, (∀ t, v ≠ .tag t) → Act.ActivationFactory.get v = .ok none) ∧
    (∀ (v : Act.PyVal) (e : PyErr), Act.ActivationFactory.get v ≠ .error e) := by
  refine ⟨fun t => ?_, fun v hv => ?_, fun v e h => ?_⟩
  · cases t <;> exact ⟨_, rfl⟩
  · cases v with
    | tag t => exact absurd rfl (hv t)
    | str s => rfl
    | pyNone => rfl
  · cases v with
    | tag t => cases t <;> simp [Act.ActivationFactory.get] at h
    | str s => simp [Act.ActivationFactory.get] at h
    | pyNone => simp [Act.ActivationFactory.get] at h

/-- Witness for C9_factory_amended: the None fallthrough at a concrete
non-member value, with the non-membership hypothesis discharged. -/
theorem C9_factory_amended_witness :
    Act.ActivationFactory.get (.str "gelu") = .ok none :=
  C9_factory_amended.2.1 (.str "gelu") (fun t => by simp)

end ClaimC9

section ClaimC8

/-- Claim C8: the activation derivatives are evaluated on the
already-computed forward output, and for every input tensor Sigmoid's
grad(f) is (1-f)*f, Tanh's grad(f) is 1-f^2, and ReLU's grad returns the
mask recorded at forward time, which is exactly 0/1-valued and equals 1
precisely where the forward input was strictly positive.  The last
conjunct shows the evaluation-on-fire contract through the layer: an
ActivationLayer in flat mode computes backfire = dy * grad(fire) with
fire the output stored by the same forward call. -/
theorem C8_activation_derivatives :
    ∀ (s : List Nat) (xd : List Nat → ℚ),
      (∃ g, Act.sigmoidGrad ⟨s, xd⟩ = .ok g ∧ g.shape = s ∧
        ∀ ix, Np.validIx s ix = true → g.data ix = (1 - xd ix) * xd ix) ∧
      ((Act.tanhGrad ⟨s, xd⟩).shape = s ∧
        ∀ ix, (Act.tanhGrad ⟨s, xd⟩).data ix = 1 - xd ix ^ 2) ∧
      (∀ ix, (Act.reluMask ⟨s, xd⟩).data ix = 0 ∨ (Act.reluMask ⟨s, xd⟩).data ix = 1) ∧
      (∀ ix, (Act.reluMask ⟨s, xd⟩).data ix = 1 ↔ 0 < xd ix) ∧
      (∀ st, ∃ f, Act.reluB.activate st ⟨s, xd⟩ =
          .ok (f, ⟨some (Act.reluMask ⟨s, xd⟩)⟩) ∧ f.shape = s ∧
          ∀ y, Act.reluB.grad ⟨some (Act.reluMask ⟨s, xd⟩)⟩ y = .ok (Act.reluMask ⟨s, xd⟩)) ∧
      (∀ (e : ℚ → ℚ) (nf : Nat) (dyd : List Nat → ℚ), ∃ l2 bf,
          Layers.ALayer.fwd (Act.sigmoidB e) (Layers.ALayer.mk0 [nf]) ⟨s, xd⟩ = .ok l2 ∧
          l2.fire = some (Act.sigmoidActivate e ⟨s, xd⟩) ∧
          Layers.ALayer.bwd (Act.sigmoidB e) l2 ⟨s, dyd⟩ = .ok bf ∧
          bf.shape = s ∧
          ∀ ix, Np.validIx s ix = true →
            bf.data ix = dyd ix * ((1 - (Act.sigmoidActivate e ⟨s, xd⟩).data ix) *
              (Act.sigmoidActivate e ⟨s, xd⟩).data ix)) := by
  intro s xd
  have hmul := bmul_same_shape (Np.scalarSub 1 ⟨s, xd⟩) ⟨s, xd⟩ s rfl rfl
  refine ⟨?_, ⟨rfl, fun ix => rfl⟩, ?_, ?_, ?_, ?_⟩
  · refine ⟨_, hmul, rfl, fun ix hix => ?_⟩
    simp [bindex_self s ix hix, Np.scalarSub]
  · intro ix
    by_cases h : 0 < xd ix
    · right; simp [Act.reluMask, h]
    · left; simp [Act.reluMask, h]
  · intro ix
    by_cases h : 0 < xd ix <;> simp [Act.reluMask, h]
  · intro st
    have hm := bmul_same_shape ⟨s, xd⟩ (Act.reluMask ⟨s, xd⟩) s rfl rfl
    refine ⟨⟨s, fun ix => (⟨s, xd⟩ : Np.Tensor).data (Np.bindex s ix) *
      (Act.reluMask ⟨s, xd⟩).data (Np.bindex s ix)⟩, ?_, rfl, fun y => rfl⟩
    simp only [Act.reluB, hm, bind_ok_eval]
  · intro e nf dyd
    have hfwd : Layers.ALayer.fwd (Act.sigmoidB e) (Layers.ALayer.mk0 [nf]) ⟨s, xd⟩ =
        .ok ⟨[nf], [nf], ⟨none⟩, some (Act.sigmoidActivate e ⟨s, xd⟩)⟩ := by
      simp [Layers.ALayer.fwd, Layers.ALayer.mk0, Layers.is_multi_channels_image,
        Act.sigmoidB, bind_ok_eval]
    have hg := bmul_same_shape (Np.scalarSub 1 (Act.sigmoidActivate e ⟨s, xd⟩))
      (Act.sigmoidActivate e ⟨s, xd⟩) s rfl rfl
    have hb := bmul_same_shape (⟨s, dyd⟩ : Np.Tensor)
      (⟨s, fun ix => (Np.scalarSub 1 (Act.sigmoidActivate e ⟨s, xd⟩)).data
          (Np.bindex s ix) * (Act.sigmoidActivate e ⟨s, xd⟩).data (Np.bindex s ix)⟩ :
        Np.Tensor) s rfl rfl
    have hbwd : Layers.ALayer.bwd (Act.sigmoidB e)
        ⟨[nf], [nf], ⟨none⟩, some (Act.sigmoidActivate e ⟨s, xd⟩)⟩ ⟨s, dyd⟩ =
        .ok ⟨s, fun ix => (⟨s, dyd⟩ : Np.Tensor).data (Np.bindex s ix) *
          (⟨s, fun jx => (Np.scalarSub 1 (Act.sigmoidActivate e ⟨s, xd⟩)).data
              (Np.bindex s jx) * (Act.sigmoidActivate e ⟨s, xd⟩).data (Np.bindex s jx)⟩ :
            Np.Tensor).data (Np.bindex s ix)⟩ := by
      simp only [Layers.ALayer.bwd, Layers.is_multi_channels_image, List.length_cons,
        List.length_nil, Act.sigmoidB, Act.sigmoidGrad, hg, hb, bind_ok_eval]
      norm_num
    refine ⟨_, _, hfwd, rfl, hbwd, rfl, ?_⟩
    intro ix hix
    simp [bindex_self s ix hix, Np.scalarSub, Act.sigmoidActivate]

/-- Witness for C8_activation_derivatives at a two-entry tensor with
value 1/2, with the index-validity hypothesis discharged at index [0]. -/
theorem C8_activation_derivatives_witness :
    ∃ g, Act.sigmoidGrad ⟨[2], fun _ => (1 : ℚ) / 2⟩ = .ok g ∧
      g.data [0] = (1 - 1 / 2) * (1 / 2) := by
  obtain ⟨g, hg, hs, hd⟩ := (C8_activation_derivatives [2] (fun _ => (1 : ℚ) / 2)).1
  exact ⟨g, hg, hd [0] (by decide)⟩

end ClaimC8

section ClaimC4

theorem relu_layer_roundtrip_shape (s : List Nat) (bsz : Nat) (xt dy : Np.Tensor)
    (h1 : Layers.is_multi_channels_image s = true)
    (hx : xt.shape = bsz :: s) (hdy : dy.shape = bsz :: s) :
    ∃ l2, Layers.ALayer.fwd Act.reluB (Layers.ALayer.mk0 s) xt = .ok l2 ∧
      l2.fire.map Np.Tensor.shape = some (bsz :: s) ∧
      (Layers.ALayer.bwd Act.reluB l2 dy).map Np.Tensor.shape = .ok (bsz :: s) := by
  have hflat := flatten_eval xt s bsz s hx rfl
  have hmask : (Act.reluMask ⟨[bsz, s.prod], fun ix =>
      xt.data (Np.unrank (bsz :: s) (Np.rank [bsz, s.prod] ix))⟩).shape = [bsz, s.prod] := rfl
  have hbm := bmul_same_shape
    (⟨[bsz, s.prod], fun ix => xt.data (Np.unrank (bsz :: s) (Np.rank [bsz, s.prod] ix))⟩ :
      Np.Tensor)
    (Act.reluMask ⟨[bsz, s.prod], fun ix =>
      xt.data (Np.unrank (bsz :: s) (Np.rank [bsz, s.prod] ix))⟩)
    [bsz, s.prod] rfl rfl
  have hunf := unflatten_eval
    (⟨[bsz, s.prod], fun ix =>
      (⟨[bsz, s.prod], fun jx =>
        xt.data (Np.unrank (bsz :: s) (Np.rank [bsz, s.prod] jx))⟩ : Np.Tensor).data
          (Np.bindex [bsz, s.prod] ix) *
      (Act.reluMask ⟨[bsz, s.prod], fun jx =>
        xt.data (Np.unrank (bsz :: s) (Np.rank [bsz, s.prod] jx))⟩).data
          (Np.bindex [bsz, s.prod] ix)⟩ : Np.Tensor) s bsz s.prod rfl rfl
  have hfwd : Layers.ALayer.fwd Act.reluB (Layers.ALayer.mk0 s) xt = .ok
      ⟨s, s, ⟨some (Act.reluMask ⟨[bsz, s.prod], fun jx =>
        xt.data (Np.unrank (bsz :: s) (Np.rank [bsz, s.prod] jx))⟩)⟩,
       some ⟨bsz :: s, fun ix =>
        (⟨[bsz, s.prod], fun jx =>
          (⟨[bsz, s.prod], fun kx =>
            xt.data (Np.unrank (bsz :: s) (Np.rank [bsz, s.prod] kx))⟩ : Np.Tensor).data
              (Np.bindex [bsz, s.prod] jx) *
          (Act.reluMask ⟨[bsz, s.prod], fun kx =>
            xt.data (Np.unrank (bsz :: s) (Np.rank [bsz, s.prod] kx))⟩).data
              (Np.bindex [bsz, s.prod] jx)⟩ : Np.Tensor).data
            (Np.unrank [bsz, s.prod] (Np.rank (bsz :: s) ix))⟩⟩ := by
    simp only [Layers.ALayer.fwd, Layers.ALayer.mk0, h1, if_true, hflat, bind_ok_eval,
      Act.reluB, hbm, hunf]
  have hflatdy := flatten_eval dy s bsz s hdy rfl
  have hbm2 := bmul_same_shape
    (⟨[bsz, s.prod], fun ix => dy.data (Np.unrank (bsz :: s) (Np.rank [bsz, s.prod] ix))⟩ :
      Np.Tensor)
    (Act.reluMask ⟨[bsz, s.prod], fun jx =>
      xt.data (Np.unrank (bsz :: s) (Np.rank [bsz, s.prod] jx))⟩)
    [bsz, s.prod] rfl rfl
  have hunf2 := unflatten_eval
    (⟨[bsz, s.prod], fun ix =>
      (⟨[bsz, s.prod], fun jx =>
        dy.data (Np.unrank (bsz :: s) (Np.rank [bsz, s.prod] jx))⟩ : Np.Tensor).data
          (Np.bindex [bsz, s.prod] ix) *
      (Act.reluMask ⟨[bsz, s.prod], fun jx =>
        xt.data (Np.unrank (bsz :: s) (Np.rank [bsz, s.prod] jx))⟩).data
          (Np.bindex [bsz, s.prod] ix)⟩ : Np.Tensor) s bsz s.prod rfl rfl
  refine ⟨_, hfwd, rfl, ?_⟩
  simp only [Layers.ALayer.bwd, h1, if_true, hflatdy, bind_ok_eval, Act.reluB,
    hbm2, hunf2, Except.map]

theorem affine_roundtrip_shape (inS outS : List Nat) (bsz : Nat) (init xt dy : Np.Tensor)
    (h1 : Layers.is_multi_channels_image inS = true)
    (h2 : init.shape = [inS.prod, outS.prod])
    (hx : xt.shape = bsz :: inS)
    (hdy : dy.shape = if Layers.is_multi_channels_image outS then bsz :: outS
                      else [bsz, outS.prod]) :
    ∃ l l2, Layers.AffLayer.setParent inS outS init = .ok l ∧
      l.w.shape = [1 + inS.prod, outS.prod] ∧
      Layers.AffLayer.fwd l xt = .ok l2 ∧
      l2.fire.map Np.Tensor.shape =
        some (if Layers.is_multi_channels_image outS then bsz :: outS
              else [bsz, outS.prod]) ∧
      (Layers.AffLayer.bwd l2 dy).map (fun p => p.2.shape) = .ok (bsz :: inS) := by
  obtain ⟨W, hW, hWs⟩ :=
    vstack_shape (Np.zeros [1, outS.prod]) init 1 inS.prod outS.prod rfl h2
  have hsp : Layers.AffLayer.setParent inS outS init =
      .ok ⟨inS, outS, W, none, Np.zeros W.shape, none⟩ := by
    simp only [Layers.AffLayer.setParent, hW, bind_ok_eval]
  obtain ⟨X1, hX1, hX1s⟩ := flatten_shape xt inS bsz inS hx rfl
  obtain ⟨XB, hXB, hXBs⟩ := prependOnesCol_shape X1 bsz inS.prod hX1s
  obtain ⟨F0, hF0, hF0s⟩ := dot_shape XB W bsz (inS.prod + 1) outS.prod hXBs
    (by rw [hWs, Nat.add_comm])
  have hTXBs : (Np.transposeT XB).shape = [inS.prod + 1, bsz] := by
    rw [transposeT_shape, hXBs]; rfl
  have hdfs : (Np.dropFirstRow W).shape = [inS.prod, outS.prod] := by
    simp [Np.dropFirstRow, hWs]
  have hTD : (Np.transposeT (Np.dropFirstRow W)).shape = [outS.prod, inS.prod] := by
    rw [transposeT_shape, hdfs]; rfl
  cases houtS : Layers.is_multi_channels_image outS with
  | true =>
      simp only [houtS, if_true] at hdy
      obtain ⟨F, hF, hFs⟩ := unflatten_shape F0 outS bsz outS.prod hF0s rfl
      have hfwd : Layers.AffLayer.fwd ⟨inS, outS, W, none, Np.zeros W.shape, none⟩ xt =
          .ok ⟨inS, outS, W, some XB, Np.zeros W.shape, some F⟩ := by
        simp only [Layers.AffLayer.fwd, h1, houtS, if_true, hX1, hXB, hF0, hF, bind_ok_eval]
      obtain ⟨DY1, hDY1, hDY1s⟩ := flatten_shape dy outS bsz outS hdy rfl
      obtain ⟨DW, hDW, hDWs⟩ :=
        dot_shape (Np.transposeT XB) DY1 (inS.prod + 1) bsz outS.prod hTXBs hDY1s
      obtain ⟨BF0, hBF0, hBF0s⟩ :=
        dot_shape DY1 (Np.transposeT (Np.dropFirstRow W)) bsz outS.prod inS.prod hDY1s hTD
      obtain ⟨BF, hBF, hBFs⟩ := unflatten_shape BF0 inS bsz inS.prod hBF0s rfl
      refine ⟨_, _, hsp, ?_, hfwd, ?_, ?_⟩
      · exact hWs
      · simp [houtS, hFs]
      · simp only [Layers.AffLayer.bwd, h1, houtS, if_true, hDY1, hDW, hBF0, hBF,
          bind_ok_eval, Except.map, hBFs]
  | false =>
      simp only [houtS, Bool.false_eq_true, if_false] at hdy
      have hfwd : Layers.AffLayer.fwd ⟨inS, outS, W, none, Np.zeros W.shape, none⟩ xt =
          .ok ⟨inS, outS, W, some XB, Np.zeros W.shape, some F0⟩ := by
        simp only [Layers.AffLayer.fwd, h1, houtS, Bool.false_eq_true, if_true, if_false,
          hX1, hXB, hF0, bind_ok_eval]
      obtain ⟨DW, hDW, hDWs⟩ :=
        dot_shape (Np.transposeT XB) dy (inS.prod + 1) bsz outS.prod hTXBs hdy
      obtain ⟨BF0, hBF0, hBF0s⟩ :=
        dot_shape dy (Np.transposeT (Np.dropFirstRow W)) bsz outS.prod inS.prod hdy hTD
      obtain ⟨BF, hBF, hBFs⟩ := unflatten_shape BF0 inS bsz inS.prod hBF0s rfl
      refine ⟨_, _, hsp, ?_, hfwd, ?_, ?_⟩
      · exact hWs
      · simp [houtS, hF0s]
      · simp only [Layers.AffLayer.bwd, h1, houtS, Bool.false_eq_true, if_true, if_false,
          hDW, hBF0, hBF, bind_ok_eval, Except.map, hBFs]

/-- Claim C4 counterexample: an ActivationLayer with the Sigmoid
activation wired to the multi-channels image input shape (2, 2, 2), fed a
well-shaped image batch forward and a gradient of exactly the layer's
output shape backward, does NOT produce a backfire: the stored fire was
unflattened to image shape at the end of forward while dy was flattened
at the start of backward, so the elementwise product dy * grad(fire)
fails to broadcast (ValueError).  This falsifies the claim that backward
on a gradient of the output shape always yields a backfire of the input
shape. -/
theorem C4_counterexample :
    (do
      let l2 ← Layers.ALayer.fwd (Act.sigmoidB (fun _ => 0)) (Layers.ALayer.mk0 [2, 2, 2])
        ⟨[1, 2, 2, 2], fun _ => 1⟩
      Layers.ALayer.bwd (Act.sigmoidB (fun _ => 0)) l2 ⟨[1, 2, 2, 2], fun _ => 1⟩)
      = .error .valueError := by
  rfl

/-- Claim C4 amended: for AffineLayer, and for ActivationLayer whose
activation's grad reads the mask recorded at forward time instead of the
stored fire (ReLU), the flatten applied to dy in backward mirrors the
unflatten applied to fire in forward and the unflatten applied to
backfire mirrors the flatten applied to x in forward, so backward on a
gradient of the layer's output shape produces a backfire of exactly the
layer's input shape; for activations whose grad is computed from the
stored (unflattened) fire, such as Sigmoid, the product in backward is
shape-mismatched instead (see the counterexample). -/
theorem C4_backward_shape_amended :
    (∀ (inS outS : List Nat) (bsz : Nat) (init xt dy : Np.Tensor),
      Layers.is_multi_channels_image inS = true →
      init.shape = [inS.prod, outS.prod] →
      xt.shape = bsz :: inS →
      dy.shape = (if Layers.is_multi_channels_image outS then bsz :: outS
                  else [bsz, outS.prod]) →
      ∃ l l2, Layers.AffLayer.setParent inS outS init = .ok l ∧
        l.w.shape = [1 + inS.prod, outS.prod] ∧
        Layers.AffLayer.fwd l xt = .ok l2 ∧
        l2.fire.map Np.Tensor.shape =
          some (if Layers.is_multi_channels_image outS then bsz :: outS
                else [bsz, outS.prod]) ∧
        (Layers.AffLayer.bwd l2 dy).map (fun p => p.2.shape) = .ok (bsz :: inS)) ∧
    (∀ (s : List Nat) (bsz : Nat) (xt dy : Np.Tensor),
      Layers.is_multi_channels_image s = true →
      xt.shape = bsz :: s →
      dy.shape = bsz :: s →
      ∃ l2, Layers.ALayer.fwd Act.reluB (Layers.ALayer.mk0 s) xt = .ok l2 ∧
        l2.fire.map Np.Tensor.shape = some (bsz :: s) ∧
        (Layers.ALayer.bwd Act.reluB l2 dy).map Np.Tensor.shape = .ok (bsz :: s)) :=
  ⟨fun inS outS bsz init xt dy h1 h2 hx hdy =>
      affine_roundtrip_shape inS outS bsz init xt dy h1 h2 hx hdy,
   fun s bsz xt dy h1 hx hdy => relu_layer_roundtrip_shape s bsz xt dy h1 hx hdy⟩

/-- Witness for C4_backward_shape_amended: an AffineLayer wired from the
image shape (2, 1, 1) to the flat output 3, and a ReLU ActivationLayer on
the image shape (2, 2, 2), each on a batch of one concrete input. -/
theorem C4_backward_shape_amended_witness :
    (∃ l l2, Layers.AffLayer.setParent [2, 1, 1] [3] ⟨[2, 3], fun _ => 1⟩ = .ok l ∧
      l.w.shape = [1 + ([2, 1, 1] : List Nat).prod, ([3] : List Nat).prod] ∧
      Layers.AffLayer.fwd l ⟨[1, 2, 1, 1], fun _ => 1⟩ = .ok l2 ∧
      l2.fire.map Np.Tensor.shape =
        some (if Layers.is_multi_channels_image [3] then 1 :: [3]
              else [1, ([3] : List Nat).prod]) ∧
      (Layers.AffLayer.bwd l2 ⟨[1, 3], fun _ => 1⟩).map (fun p => p.2.shape) =
        .ok (1 :: [2, 1, 1])) ∧
    (∃ l2, Layers.ALayer.fwd Act.reluB (Layers.ALayer.mk0 [2, 2, 2])
        ⟨[1, 2, 2, 2], fun _ => 1⟩ = .ok l2 ∧
      l2.fire.map Np.Tensor.shape = some (1 :: [2, 2, 2]) ∧
      (Layers.ALayer.bwd Act.reluB l2 ⟨[1, 2, 2, 2], fun _ => 1⟩).map Np.Tensor.shape =
        .ok (1 :: [2, 2, 2])) :=
  ⟨C4_backward_shape_amended.1 [2, 1, 1] [3] 1 ⟨[2, 3], fun _ => 1⟩
      ⟨[1, 2, 1, 1], fun _ => 1⟩ ⟨[1, 3], fun _ => 1⟩ (by decide) (by decide) rfl
      (by decide),
   C4_backward_shape_amended.2 [2, 2, 2] 1 ⟨[1, 2, 2, 2], fun _ => 1⟩
      ⟨[1, 2, 2, 2], fun _ => 1⟩ (by decide) rfl rfl⟩

end ClaimC4

section ClaimC10

/-- Claim C10: AffineLayer folds the bias into its weight matrix.  After
set_parent, w has shape (1 + prod(input_shape), prod(output_shape)) with
an all-zero first (bias) row and the externally initialized weights
below it; forward prepends a ones column to the input so that
fire[i, j] = w[0, j] + sum_k x[i, k] * w[k+1, j] (that is, [1 | x] . w);
backward computes backfire = dy . w[1:, :]^T, never touching the bias
row, while dw = (1/batch_size) * x^T . dy has the shape of the full
augmented weight. -/
theorem C10_affine_bias_folding :
    ∀ (nIn nOut bsz : Nat) (initd xd dyd : List Nat → ℚ), 0 < bsz →
    ∃ l l2, Layers.AffLayer.setParent [nIn] [nOut] ⟨[nIn, nOut], initd⟩ = .ok l ∧
      l.w.shape = [1 + nIn, nOut] ∧
      (∀ j, l.w.data [0, j] = 0) ∧
      (∀ k j, l.w.data [k + 1, j] = initd [k, j]) ∧
      Layers.AffLayer.fwd l ⟨[bsz, nIn], xd⟩ = .ok l2 ∧
      (∀ i j, l2.fire.map (fun f => f.data [i, j]) =
        some (l.w.data [0, j] +
          ∑ k ∈ Finset.range nIn, xd [i, k] * l.w.data [k + 1, j])) ∧
      ((Layers.AffLayer.bwd l2 ⟨[bsz, nOut], dyd⟩).map (fun p => p.2.shape) =
        .ok [bsz, nIn]) ∧
      (∀ i k, (Layers.AffLayer.bwd l2 ⟨[bsz, nOut], dyd⟩).map (fun p => p.2.data [i, k]) =
        .ok (∑ j ∈ Finset.range nOut, dyd [i, j] * l.w.data [k + 1, j])) ∧
      ((Layers.AffLayer.bwd l2 ⟨[bsz, nOut], dyd⟩).map (fun p => p.1.dw.shape) =
        .ok [1 + nIn, nOut]) ∧
      (∀ pr j, (Layers.AffLayer.bwd l2 ⟨[bsz, nOut], dyd⟩).map
          (fun p => p.1.dw.data [pr, j]) =
        .ok (1 / (bsz : ℚ) *
          ∑ r ∈ Finset.range bsz, (if pr = 0 then 1 else xd [r, pr - 1]) * dyd [r, j])) := by
  intro nIn nOut bsz initd xd dyd hbsz
  have hW := vstack_eval (Np.zeros [1, ([nOut] : List Nat).prod])
    (⟨[nIn, nOut], initd⟩ : Np.Tensor) 1 nIn (([nOut] : List Nat).prod) rfl (by simp)
  have hsp : Layers.AffLayer.setParent [nIn] [nOut] ⟨[nIn, nOut], initd⟩ = .ok
      ⟨[nIn], [nOut],
       ⟨[1 + nIn, ([nOut] : List Nat).prod], fun ix =>
          if ix.headD 0 < 1 then (Np.zeros [1, ([nOut] : List Nat).prod]).data ix
          else (⟨[nIn, nOut], initd⟩ : Np.Tensor).data ((ix.headD 0 - 1) :: ix.tail)⟩,
       none,
       Np.zeros [1 + nIn, ([nOut] : List Nat).prod], none⟩ := by
    simp only [Layers.AffLayer.setParent, hW, bind_ok_eval]
  have hmciIn : Layers.is_multi_channels_image [nIn] = false := by
    simp [Layers.is_multi_channels_image]
  have hmciOut : Layers.is_multi_channels_image [nOut] = false := by
    simp [Layers.is_multi_channels_image]
  have hpo := prependOnesCol_eval (⟨[bsz, nIn], xd⟩ : Np.Tensor) bsz nIn rfl
  have hdot := dot_eval
    (⟨[bsz, nIn + 1], fun ix => if ix.getD 1 0 = 0 then 1
        else (⟨[bsz, nIn], xd⟩ : Np.Tensor).data [ix.headD 0, ix.getD 1 0 - 1]⟩ : Np.Tensor)
    (⟨[1 + nIn, ([nOut] : List Nat).prod], fun ix =>
        if ix.headD 0 < 1 then (Np.zeros [1, ([nOut] : List Nat).prod]).data ix
        else (⟨[nIn, nOut], initd⟩ : Np.Tensor).data ((ix.headD 0 - 1) :: ix.tail)⟩ :
      Np.Tensor)
    bsz (nIn + 1) (([nOut] : List Nat).prod) rfl (by simp [Nat.add_comm])
  have hfwd : Layers.AffLayer.fwd
      ⟨[nIn], [nOut],
       ⟨[1 + nIn, ([nOut] : List Nat).prod], fun ix =>
          if ix.headD 0 < 1 then (Np.zeros [1, ([nOut] : List Nat).prod]).data ix
          else (⟨[nIn, nOut], initd⟩ : Np.Tensor).data ((ix.headD 0 - 1) :: ix.tail)⟩,
       none, Np.zeros [1 + nIn, ([nOut] : List Nat).prod], none⟩
      (⟨[bsz, nIn], xd⟩ : Np.Tensor) = .ok
      ⟨[nIn], [nOut],
       ⟨[1 + nIn, ([nOut] : List Nat).prod], fun ix =>
          if ix.headD 0 < 1 then (Np.zeros [1, ([nOut] : List Nat).prod]).data ix
          else (⟨[nIn, nOut], initd⟩ : Np.Tensor).data ((ix.headD 0 - 1) :: ix.tail)⟩,
       some ⟨[bsz, nIn + 1], fun ix => if ix.getD 1 0 = 0 then 1
          else (⟨[bsz, nIn], xd⟩ : Np.Tensor).data [ix.headD 0, ix.getD 1 0 - 1]⟩,
       Np.zeros [1 + nIn, ([nOut] : List Nat).prod],
       some ⟨[bsz, ([nOut] : List Nat).prod], fun ix =>
          ∑ l ∈ Finset.range (nIn + 1),
            (⟨[bsz, nIn + 1], fun jx => if jx.getD 1 0 = 0 then 1
                else (⟨[bsz, nIn], xd⟩ : Np.Tensor).data
                  [jx.headD 0, jx.getD 1 0 - 1]⟩ : Np.Tensor).data [ix.headD 0, l] *
            (⟨[1 + nIn, ([nOut] : List Nat).prod], fun jx =>
                if jx.headD 0 < 1 then (Np.zeros [1, ([nOut] : List Nat).prod]).data jx
                else (⟨[nIn, nOut], initd⟩ : Np.Tensor).data
                  ((jx.headD 0 - 1) :: jx.tail)⟩ : Np.Tensor).data [l, ix.getD 1 0]⟩⟩ := by
    simp only [Layers.AffLayer.fwd, hmciIn, hmciOut, Bool.false_eq_true, if_false,
      hpo, hdot, bind_ok_eval]
  have hdw := dot_eval
    (Np.transposeT ⟨[bsz, nIn + 1], fun ix => if ix.getD 1 0 = 0 then 1
        else (⟨[bsz, nIn], xd⟩ : Np.Tensor).data [ix.headD 0, ix.getD 1 0 - 1]⟩)
    (⟨[bsz, nOut], dyd⟩ : Np.Tensor) (nIn + 1) bsz nOut rfl rfl
  have hbf0 := dot_eval (⟨[bsz, nOut], dyd⟩ : Np.Tensor)
    (Np.transposeT (Np.dropFirstRow
      ⟨[1 + nIn, ([nOut] : List Nat).prod], fun ix =>
        if ix.headD 0 < 1 then (Np.zeros [1, ([nOut] : List Nat).prod]).data ix
        else (⟨[nIn, nOut], initd⟩ : Np.Tensor).data ((ix.headD 0 - 1) :: ix.tail)⟩))
    bsz nOut nIn rfl (by simp [Np.transposeT, Np.dropFirstRow])
  refine ⟨_, _, hsp, ?_, ?_, ?_, hfwd, ?_, ?_, ?_, ?_, ?_⟩
  · simp
  · intro j
    simp [Np.zeros]
  · intro k j
    simp
  · intro i j
    simp only [Option.map_some']
    rw [Finset.sum_range_succ']
    simp [add_comm]
  · simp only [Layers.AffLayer.bwd, hmciIn, hmciOut, Bool.false_eq_true, if_false,
      hdw, hbf0, bind_ok_eval, Except.map]
  · intro i k
    simp only [Layers.AffLayer.bwd, hmciIn, hmciOut, Bool.false_eq_true, if_false,
      hdw, hbf0, bind_ok_eval, Except.map]
    simp [Np.transposeT, Np.dropFirstRow]
  · simp only [Layers.AffLayer.bwd, hmciIn, hmciOut, Bool.false_eq_true, if_false,
      hdw, hbf0, bind_ok_eval, Except.map]
    simp [Np.scalarMul, Nat.add_comm]
  · intro pr j
    simp only [Layers.AffLayer.bwd, hmciIn, hmciOut, Bool.false_eq_true, if_false,
      hdw, hbf0, bind_ok_eval, Except.map]
    simp [Np.scalarMul, Np.transposeT]

/-- Witness for C10_affine_bias_folding on a 2-to-1 affine layer with a
batch of one. -/
theorem C10_affine_bias_folding_witness :
    ∃ l l2, Layers.AffLayer.setParent [2] [1] ⟨[2, 1], fun _ => 1⟩ = .ok l ∧
      l.w.shape = [1 + 2, 1] ∧
      (∀ j, l.w.data [0, j] = 0) ∧
      (∀ k j, l.w.data [k + 1, j] = (fun (_ : List Nat) => (1 : ℚ)) [k, j]) ∧
      Layers.AffLayer.fwd l ⟨[1, 2], fun _ => 2⟩ = .ok l2 ∧
      (∀ i j, l2.fire.map (fun f => f.data [i, j]) =
        some (l.w.data [0, j] +
          ∑ k ∈ Finset.range 2, (fun (_ : List Nat) => (2 : ℚ)) [i, k] * l.w.data [k + 1, j])) ∧
      ((Layers.AffLayer.bwd l2 ⟨[1, 1], fun _ => 3⟩).map (fun p => p.2.shape) =
        .ok [1, 2]) ∧
      (∀ i k, (Layers.AffLayer.bwd l2 ⟨[1, 1], fun _ => 3⟩).map (fun p => p.2.data [i, k]) =
        .ok (∑ j ∈ Finset.range 1, (fun (_ : List Nat) => (3 : ℚ)) [i, j] * l.w.data [k + 1, j])) ∧
      ((Layers.AffLayer.bwd l2 ⟨[1, 1], fun _ => 3⟩).map (fun p => p.1.dw.shape) =
        .ok [1 + 2, 1]) ∧
      (∀ pr j, (Layers.AffLayer.bwd l2 ⟨[1, 1], fun _ => 3⟩).map
          (fun p => p.1.dw.data [pr, j]) =
        .ok (1 / ((1 : Nat) : ℚ) * ∑ r ∈ Finset.range 1,
          (if pr = 0 then 1 else (fun (_ : List Nat) => (2 : ℚ)) [r, pr - 1]) *
            (fun (_ : List Nat) => (3 : ℚ)) [r, j])) :=
  C10_affine_bias_folding 2 1 1 (fun _ => 1) (fun _ => 2) (fun _ => 3) (by decide)

end ClaimC10

section ClaimC5

/-- Claim C5 (code bug): after an epoch the engine always computes the
training loss, computes the test loss only on a non-empty test set, and
for a non-squared-error loss computes argmax-match accuracy; BUT an
empty test set DOES cause a failure in that case: __evaluate line 260
reads y_test_pred.size while y_test_pred is still None, so the first
conjunct shows an AttributeError for a non-squared-error loss on an
empty test set; with squared error the same inputs succeed with no test
metrics, and on a non-empty test set both accuracies are the fraction of
rows with matching argmax (here 1/2, first-maximum semantics). -/
theorem C5_evaluate_empty_test_bug :
    (Engine.evaluate false (fun _ _ => 0) id ⟨[1, 1], fun _ => 0⟩ ⟨[1, 1], fun _ => 0⟩
        ⟨[0, 1], fun _ => 0⟩ ⟨[0, 1], fun _ => 0⟩ = .error .attributeError) ∧
    (Engine.evaluate true (fun _ _ => 0) id ⟨[1, 1], fun _ => 0⟩ ⟨[1, 1], fun _ => 0⟩
        ⟨[0, 1], fun _ => 0⟩ ⟨[0, 1], fun _ => 0⟩ = .ok ⟨0, none, none, none⟩) ∧
    (Engine.evaluate false (fun _ _ => 0)
        (fun _ => ⟨[2, 2], fun ix => if ix.getD 1 0 = 0 then 1 else 0⟩)
        ⟨[2, 2], fun ix => if ix.headD 0 = ix.getD 1 0 then 1 else 0⟩
        ⟨[2, 2], fun ix => if ix.headD 0 = ix.getD 1 0 then 1 else 0⟩
        ⟨[2, 2], fun ix => if ix.headD 0 = ix.getD 1 0 then 1 else 0⟩
        ⟨[2, 2], fun ix => if ix.headD 0 = ix.getD 1 0 then 1 else 0⟩ =
      .ok ⟨0, some 0, some (1 / 2), some (1 / 2)⟩) ∧
    Engine.getAccuracy ⟨[2, 2], fun ix => if ix.headD 0 = ix.getD 1 0 then 1 else 0⟩
      ⟨[2, 2], fun ix => if ix.getD 1 0 = 0 then 1 else 0⟩ = 1 / 2 := by
  refine ⟨rfl, rfl, ?_, ?_⟩
  · show Except.ok _ = _
    norm_num [Engine.evaluate, Engine.getAccuracy, Np.Tensor.size, Np.argmaxRow,
      List.countP, List.countP.go, List.range_succ]
  · norm_num [Engine.getAccuracy, Np.argmaxRow, List.countP, List.countP.go,
      List.range_succ]

end ClaimC5

section ClaimC6

theorem epoch_optimize_count {W α : Type} [Sub α] (opt : W → W → W)
    (xs ys : Nat × Nat → α) :
    ∀ (L : List (Nat × Nat)) (p : List (Engine.Node W α) × List Engine.Event),
      ((L.foldl (fun p se =>
          let r := Engine.trainOneBatch opt p.1 (xs se) (ys se)
          (r.1, p.2 ++ r.2)) p).2.countP (fun e => e == Engine.Event.optimizeNetwork)) =
      p.2.countP (fun e => e == Engine.Event.optimizeNetwork) + L.length := by
  intro L
  induction L with
  | nil => intro p; simp
  | cons se rest ih =>
      intro p
      rw [List.foldl_cons, ih]
      simp [Engine.trainOneBatch, List.countP_append, List.countP_cons]
      omega

theorem mul_add_one_le_of_lt_ceilDiv (n bs k : Nat) (hbs : 0 < bs)
    (hk : k + 1 < (n + bs - 1) / bs) : k * bs + bs ≤ n := by
  have h1 : (k + 2) * bs ≤ ((n + bs - 1) / bs) * bs :=
    Nat.mul_le_mul_right bs (by omega)
  have h2 : ((n + bs - 1) / bs) * bs ≤ n + bs - 1 := Nat.div_mul_le_self _ _
  have h3 : (k + 2) * bs ≤ n + bs - 1 := le_trans h1 h2
  have h4 : k * bs + 2 * bs ≤ n + bs - 1 := by
    calc k * bs + 2 * bs = (k + 2) * bs := by ring
    _ ≤ n + bs - 1 := h3
  omega

/-- Claim C6: each epoch slices the training data into contiguous
batch_size chunks in order (the element, contiguity and full-chunk
conjuncts), invokes the optimizer-update step exactly once per chunk (the
event-count conjunct), and concretely 10 samples with batch_size 3 give
chunks of sizes [3, 3, 3, 1] and four optimizer updates. -/
theorem C6_batch_slicing :
    ∀ (n bs : Nat), 0 < bs →
    ∃ L, Engine.epochBounds n bs = .ok L ∧
      L.length = (n + bs - 1) / bs ∧
      (∀ k, k < L.length → L.getD k (0, 0) = (k * bs, min (k * bs + bs) n)) ∧
      (∀ k, k + 1 < L.length → (L.getD (k + 1) (0, 0)).1 = (L.getD k (0, 0)).2) ∧
      (∀ k, k + 1 < L.length → (L.getD k (0, 0)).2 - (L.getD k (0, 0)).1 = bs) ∧
      (∀ {W α : Type} [Sub α] (opt : W → W → W) (ns : List (Engine.Node W α))
        (xs ys : Nat × Nat → α),
        (Engine.trainOneEpoch opt ns xs ys n bs).map
          (fun p => p.2.countP (fun e => e == Engine.Event.optimizeNetwork)) =
          .ok L.length) ∧
      (Engine.epochBounds 10 3 = .ok [(0, 3), (3, 6), (6, 9), (9, 10)]) ∧
      ((Engine.epochBounds 10 3).map (fun l => l.map (fun se => se.2 - se.1)) =
        .ok [3, 3, 3, 1]) := by
  intro n bs hbs
  have hbs0 : bs ≠ 0 := Nat.pos_iff_ne_zero.mp hbs
  have hL : Engine.epochBounds n bs =
      .ok ((List.range ((n + bs - 1) / bs)).map (fun k => (k * bs, min (k * bs + bs) n))) := by
    simp [Engine.epochBounds, hbs0]
  have helem : ∀ k, k < ((List.range ((n + bs - 1) / bs)).map
      (fun k => (k * bs, min (k * bs + bs) n))).length →
      ((List.range ((n + bs - 1) / bs)).map
        (fun k => (k * bs, min (k * bs + bs) n))).getD k (0, 0) =
      (k * bs, min (k * bs + bs) n) := by
    intro k hk
    simp only [List.length_map, List.length_range] at hk
    rw [List.getD_eq_getElem?_getD, List.getElem?_map, List.getElem?_range hk]
    rfl
  refine ⟨_, hL, by simp, helem, ?_, ?_, ?_, by rfl, by rfl⟩
  · intro k hk
    simp only [List.length_map, List.length_range] at hk
    rw [helem (k + 1) (by simp; omega), helem k (by simp; omega)]
    have := mul_add_one_le_of_lt_ceilDiv n bs k hbs (by omega)
    simp only [min_eq_left this]
    ring
  · intro k hk
    simp only [List.length_map, List.length_range] at hk
    rw [helem k (by simp; omega)]
    have := mul_add_one_le_of_lt_ceilDiv n bs k hbs (by omega)
    simp [min_eq_left this]
  · intro W α inst opt ns xs ys
    simp only [Engine.trainOneEpoch, hL, bind_ok_eval, Except.map,
      epoch_optimize_count opt xs ys]
    simp

/-- Witness for C6_batch_slicing at 10 samples and batch_size 3. -/
theorem C6_batch_slicing_witness :
    ∃ L, Engine.epochBounds 10 3 = .ok L ∧
      L.length = (10 + 3 - 1) / 3 ∧
      (∀ k, k < L.length → L.getD k (0, 0) = (k * 3, min (k * 3 + 3) 10)) ∧
      (∀ k, k + 1 < L.length → (L.getD (k + 1) (0, 0)).1 = (L.getD k (0, 0)).2) ∧
      (∀ k, k + 1 < L.length → (L.getD k (0, 0)).2 - (L.getD k (0, 0)).1 = 3) ∧
      (∀ {W α : Type} [Sub α] (opt : W → W → W) (ns : List (Engine.Node W α))
        (xs ys : Nat × Nat → α),
        (Engine.trainOneEpoch opt ns xs ys 10 3).map
          (fun p => p.2.countP (fun e => e == Engine.Event.optimizeNetwork)) =
          .ok L.length) ∧
      (Engine.epochBounds 10 3 = .ok [(0, 3), (3, 6), (6, 9), (9, 10)]) ∧
      ((Engine.epochBounds 10 3).map (fun l => l.map (fun se => se.2 - se.1)) =
        .ok [3, 3, 3, 1]) :=
  C6_batch_slicing 10 3 (by decide)

end ClaimC6

section ClaimC7

theorem lastFire_forwardRec {W α : Type} :
    ∀ (ns : List (Engine.Node W α)) (x dflt : α), ns ≠ [] →
      Engine.lastFire (Engine.forwardRec ns x) dflt = Engine.chainEval ns x := by
  intro ns
  induction ns with
  | nil => intro x dflt h; exact absurd rfl h
  | cons n rest ih =>
      intro x dflt h
      cases rest with
      | nil =>
          simp [Engine.forwardRec, Engine.lastFire, Engine.chainEval]
      | cons r rs =>
          have step := ih (n.fwf n.w x) dflt (by simp)
          simp only [Engine.forwardRec] at step ⊢
          simp only [Engine.lastFire, List.getLast?_cons_cons] at step ⊢
          exact step

/-- Claim C7: for every batch, the engine first recomputes the forward
pass from the root on the batch input, seeds the backward pass from the
terminal layer with (prediction - target) where the prediction is the
terminal fire of that same forward pass (the composite of the per-layer
forward functions applied to x, independent of any stale stored fire),
and only then applies the per-layer optimizer updates to the gradients
the backward pass just computed. -/
theorem C7_forward_backward_order :
    ∀ {W α : Type} [Sub α] (opt : W → W → W) (ns : List (Engine.Node W α)) (x y : α),
      ns ≠ [] →
      Engine.trainOneBatch opt ns x y =
        (Engine.optimizeNetwork opt (Engine.backwardRec (Engine.forwardRec ns x)
            (Engine.chainEval ns x - y)),
         [Engine.Event.forwardRoot, Engine.Event.backwardSeeded,
          Engine.Event.optimizeNetwork]) := by
  intro W α inst opt ns x y h
  simp only [Engine.trainOneBatch]
  rw [lastFire_forwardRec ns x x h]

/-- Witness for C7_forward_backward_order on a one-layer chain over
rational data. -/
theorem C7_forward_backward_order_witness :
    Engine.trainOneBatch (fun (w g : ℚ) => w - g)
      [⟨3, fun w a => w * a, fun _ _ dy => dy, fun _ xs dy => xs * dy, true, 0, 99, 0⟩]
      2 1 =
      (Engine.optimizeNetwork (fun (w g : ℚ) => w - g)
        (Engine.backwardRec (Engine.forwardRec
          [⟨3, fun w a => w * a, fun _ _ dy => dy, fun _ xs dy => xs * dy, true, 0, 99, 0⟩] 2)
          (Engine.chainEval
            [⟨3, fun w a => w * a, fun _ _ dy => dy, fun _ xs dy => xs * dy, true, 0, 99, 0⟩]
            2 - 1)),
       [Engine.Event.forwardRoot, Engine.Event.backwardSeeded,
        Engine.Event.optimizeNetwork]) :=
  C7_forward_backward_order (fun (w g : ℚ) => w - g)
    [⟨3, fun w a => w * a, fun _ _ dy => dy, fun _ xs dy => xs * dy, true, 0, 99, 0⟩]
    2 1 (by simp)

end ClaimC7

section ClaimC3

/-- Claim C3: im2col maps a (b, c, h, w) image with window (wr, wc),
zero pad and strides (sr, sc) that divide evenly to a matrix with
b * ((h-wr)/sr + 1) * ((w-wc)/sc + 1) rows and c*wr*wc columns; with
unit strides the row count is b*(h-wr+1)*(w-wc+1).  The theorem is
stated under the module's own global bindings (pad = (0, 0)), the only
environment in which pad_img does not raise a NameError on its global
pad lookup. -/
theorem C3_im2col_shape :
    ∀ (b c h w wr wc sr sc : Nat) (data4 : Nat → Nat → Nat → Nat → ℚ),
      wr ≤ h → wc ≤ w → 0 < sr → 0 < sc →
      (h - wr) % sr = 0 → (w - wc) % sc = 0 →
      ∃ m : Im2col.Mat2,
        Im2col.im2col Im2col.moduleEnv (.d4 ⟨b, c, h, w, data4⟩) (wr, wc)
          (.int 0, .int 0) (sr, sc) false = .ok m ∧
        m.rows = b * ((h - wr) / sr + 1) * ((w - wc) / sc + 1) ∧
        m.cols = c * wr * wc ∧
        (sr = 1 → sc = 1 → m.rows = b * (h - wr + 1) * (w - wc + 1)) := by
  intro b c h w wr wc sr sc data4 hwr hwc hsr hsc hgr hgc
  have hsrZ : ((sr : ℤ)) ≠ 0 := Int.natCast_ne_zero.mpr (Nat.pos_iff_ne_zero.mp hsr)
  have hscZ : ((sc : ℤ)) ≠ 0 := Int.natCast_ne_zero.mpr (Nat.pos_iff_ne_zero.mp hsc)
  have e1 : ((h : ℤ) - (wr : ℤ)).fmod (sr : ℤ) = 0 := by
    rw [← Int.ofNat_sub hwr, Int.fmod_eq_emod _ (by positivity), ← Int.ofNat_emod]
    simp [hgr]
  have e2 : ((w : ℤ) - (wc : ℤ)).fmod (sc : ℤ) = 0 := by
    rw [← Int.ofNat_sub hwc, Int.fmod_eq_emod _ (by positivity), ← Int.ofNat_emod]
    simp [hgc]
  have hrem : Im2col.get_remainders_of_filtering h w wr wc (sr, sc) = .ok (0, 0) := by
    simp [Im2col.get_remainders_of_filtering, Im2col.pymod, hsrZ, hscZ, e1, e2,
      bind_ok_eval]
  have hcast : ∀ q : ℕ, ((q : ℤ) + 1).toNat = q + 1 := fun q => by omega
  have hnonneg : ∀ q : ℕ, ¬((q : ℤ) + 1 < 0) := fun q => by omega
  have hdiv1 : Im2col.pyfdiv ((h : ℤ) - (wr : ℤ)) (sr : ℤ) = .ok (((h - wr) / sr : ℕ) : ℤ) := by
    unfold Im2col.pyfdiv
    rw [if_neg hsrZ, ← Int.ofNat_sub hwr, Int.fdiv_eq_ediv _ (by positivity),
      ← Int.ofNat_ediv]
  have hdiv2 : Im2col.pyfdiv ((w : ℤ) - (wc : ℤ)) (sc : ℤ) = .ok (((w - wc) / sc : ℕ) : ℤ) := by
    unfold Im2col.pyfdiv
    rw [if_neg hscZ, ← Int.ofNat_sub hwc, Int.fdiv_eq_ediv _ (by positivity),
      ← Int.ofNat_ediv]
  have hneg : ¬((((h - wr) / sr : ℕ) : ℤ) + 1 < 0 ∨ (((w - wc) / sc : ℕ) : ℤ) + 1 < 0) := by
    push_neg
    exact ⟨not_lt.mp (hnonneg _), not_lt.mp (hnonneg _)⟩
  have ht1 : (((((h - wr) / sr : ℕ) : ℤ)) + 1).toNat = (h - wr) / sr + 1 := hcast _
  have ht2 : (((((w - wc) / sc : ℕ) : ℤ)) + 1).toNat = (w - wc) / sc + 1 := hcast _
  refine ⟨Im2col.gatherView ⟨b, c, h, w, data4⟩ wr wc sr sc ((h - wr) / sr + 1)
    ((w - wc) / sc + 1), ?_, rfl, rfl, ?_⟩
  · have hpad : Im2col.pad_img Im2col.moduleEnv ⟨b, c, h, w, data4⟩
        (.int 0) (.int 0) = .ok ⟨b, c, h, w, data4⟩ := rfl
    simp only [Im2col.im2col, Im2col.reshape_img, hpad, bind_ok_eval, hrem, hdiv1,
      hdiv2, hneg, lt_irrefl, or_self, if_false, ht1, ht2]
  · intro hs1 hs2
    subst hs1
    subst hs2
    simp [Im2col.gatherView, Nat.div_one]

/-- Witness for C3_im2col_shape on a 1-batch 1-channel 3-by-3 image with
a 2-by-2 window and unit strides: 4 window rows and 4 columns. -/
theorem C3_im2col_shape_witness :
    ∃ m : Im2col.Mat2,
      Im2col.im2col Im2col.moduleEnv (.d4 ⟨1, 1, 3, 3, fun _ _ _ _ => 0⟩) (2, 2)
        (.int 0, .int 0) (1, 1) false = .ok m ∧
      m.rows = 1 * ((3 - 2) / 1 + 1) * ((3 - 2) / 1 + 1) ∧
      m.cols = 1 * 2 * 2 ∧
      (1 = 1 → 1 = 1 → m.rows = 1 * (3 - 2 + 1) * (3 - 2 + 1)) :=
  C3_im2col_shape 1 1 3 3 2 2 1 1 (fun _ _ _ _ => 0) (by decide) (by decide)
    (by decide) (by decide) (by decide) (by decide)

end ClaimC3

section ClaimC2

/-- Claim C2 (code bug): on a (1, 1, 4, 4) image with window (2, 2) and
strides (3, 3) the remainder (4-2) mod 3 = 2 is nonzero.  With
force=False im2col does raise the ShapeMismatch RuntimeError as the
claim says, but with force=True it does NOT zero-pad to divisibility:
extend_img_for_filtering ignores its rem_r/rem_c parameters and reads
the module globals gap_r/gap_c — under the module's own top-level
bindings these are 0 (and pad_img short-circuits on the stale global
pad = (0, 0)), so the image stays 4 by 4 and the output is silently
truncated to a single window per image (1 row), while with the globals
unbound (the dead notebook cells removed) the same call raises
NameError.  The last conjunct records that the remainder the claim says
is eliminated is still nonzero. -/
theorem C2_force_padding_bug :
    (Im2col.im2col Im2col.moduleEnv (.d4 ⟨1, 1, 4, 4, fun _ _ _ _ => 0⟩) (2, 2)
        (.int 0, .int 0) (3, 3) false = .error .runtimeShapeMismatch) ∧
    ((Im2col.im2col Im2col.moduleEnv (.d4 ⟨1, 1, 4, 4, fun _ _ _ _ => 0⟩) (2, 2)
        (.int 0, .int 0) (3, 3) true).map (fun m => (m.rows, m.cols)) = .ok (1, 4)) ∧
    (Im2col.im2col Im2col.bareEnv (.d4 ⟨1, 1, 4, 4, fun _ _ _ _ => 0⟩) (2, 2)
        (.int 0, .int 0) (3, 3) true = .error .nameError) ∧
    Im2col.get_remainders_of_filtering 4 4 2 2 (3, 3) = .ok (2, 2) :=
  ⟨rfl, rfl, rfl, rfl⟩

end ClaimC2

section ClaimC1

/-- Claim C1 (code bug): col2im is NOT the inverse data-routing of
im2col and never sums overlapping window contributions.  Under the
module's own global environment (and under the bare one) col2im raises
NameError on ANY input, its first statement reading the never-bound
globals oh and ow — in particular col2im(im2col(x), ...) always fails.
Giving the code the benefit of bound globals oh = ow = 3 (the window
grid of a stride-1 im2col of a 4-by-4 image with a 2-by-2 window), the
all-ones gradient matrix of the specification's own test is routed to an
all-ones image: the entry at interior pixel (1, 1) is 1, although 4
windows cover that pixel, so the claimed sum of contributions would be
4 — the code selects the four non-overlapping windows (hard-coded count
4) and copies them, instead of accumulating all nine. -/
theorem C1_col2im_bug :
    (∀ (mat : Np.Tensor) (ws : Nat × Nat) (B C hh ww : Nat) (st : Nat × Nat),
      Im2col.col2im Im2col.moduleEnv mat ws B C hh ww st = .error .nameError) ∧
    (∀ (mat : Np.Tensor) (ws : Nat × Nat) (B C hh ww : Nat) (st : Nat × Nat),
      Im2col.col2im Im2col.bareEnv mat ws B C hh ww st = .error .nameError) ∧
    (∃ t, Im2col.col2im ⟨some (0, 0), some 0, some 0, some 3, some 3⟩
        ⟨[1, 9, 4], fun _ => 1⟩ (2, 2) 1 1 4 4 (1, 1) = .ok t ∧
      t.shape = [1, 1, 4, 4] ∧ t.data [0, 0, 1, 1] = 1) ∧
    Im2col.windowsCovering 4 4 2 2 1 1 1 1 = 4 :=
  ⟨fun mat ws B C hh ww st => rfl, fun mat ws B C hh ww st => rfl,
   ⟨_, rfl, rfl, rfl⟩, by decide⟩

end ClaimC1
